import Mathlib

/-!
Verification development for `bytenuts`, an interactive serial-port terminal
(`src/bytenuts.c`).  The C source is shallowly embedded below: pure helper
functions (`string_to_speed`, `speed_to_string`) become Lean functions on
`String`/an enumerated `speed_t`; the argument parser and config-file loader
become functions over lists of characters (C strings) threading the global
`bytenuts` state explicitly; the lock discipline, the shutdown sequence and
the condition-variable stop protocol become small transition systems over
explicit action traces.
-/

namespace Bytenuts

/-- The termios speed enumeration, as used by `string_to_speed` and
`speed_to_string` (`src/bytenuts.c:386-518`).  The concrete integer values are
irrelevant to the source, which only ever compares constants for equality, so
the enumeration is modelled as an inductive type of distinct constants. -/
inductive speed_t where
  | B0 | B50 | B75 | B110 | B134 | B150 | B200 | B300 | B600
  | B1200 | B1800 | B2400 | B4800 | B9600 | B19200 | B38400 | B57600
  | B115200 | B230400 | B460800 | B500000 | B576000 | B921600
  | B1000000 | B1152000 | B1500000 | B2000000 | B2500000 | B3000000
  | B3500000 | B4000000
deriving DecidableEq, Repr

/-- `string_to_speed` (`src/bytenuts.c:386-451`): an `if (!strcmp(...))` chain
mapping a textual rate to a `speed_t` constant; any unrecognized string falls
through to `B0`. -/
def string_to_speed (speed : String) : speed_t :=
  if speed = "50" then .B50
  else if speed = "75" then .B75
  else if speed = "110" then .B110
  else if speed = "134" then .B134
  else if speed = "150" then .B150
  else if speed = "200" then .B200
  else if speed = "300" then .B300
  else if speed = "600" then .B600
  else if speed = "1200" then .B1200
  else if speed = "1800" then .B1800
  else if speed = "2400" then .B2400
  else if speed = "4800" then .B4800
  else if speed = "9600" then .B9600
  else if speed = "19200" then .B19200
  else if speed = "38400" then .B38400
  else if speed = "57600" then .B57600
  else if speed = "115200" then .B1152000
  else if speed = "230400" then .B230400
  else if speed = "460800" then .B460800
  else if speed = "500000" then .B500000
  else if speed = "576000" then .B576000
  else if speed = "921600" then .B921600
  else if speed = "1000000" then .B1000000
  else if speed = "1152000" then .B1152000
  else if speed = "1500000" then .B1500000
  else if speed = "2000000" then .B2000000
  else if speed = "2500000" then .B2500000
  else if speed = "3000000" then .B3000000
  else if speed = "3500000" then .B3500000
  else if speed = "4000000" then .B4000000
  else .B0

/-- `speed_to_string` (`src/bytenuts.c:453-518`): the inverse `if` chain, with
the unrecognized case returning the empty string. -/
def speed_to_string (speed : speed_t) : String :=
  if speed = .B50 then "B50"
  else if speed = .B75 then "B75"
  else if speed = .B110 then "B110"
  else if speed = .B134 then "B134"
  else if speed = .B150 then "B150"
  else if speed = .B200 then "B200"
  else if speed = .B300 then "B300"
  else if speed = .B600 then "B600"
  else if speed = .B1200 then "B1200"
  else if speed = .B1800 then "B1800"
  else if speed = .B2400 then "B2400"
  else if speed = .B4800 then "B4800"
  else if speed = .B9600 then "B9600"
  else if speed = .B19200 then "B19200"
  else if speed = .B38400 then "B38400"
  else if speed = .B57600 then "B57600"
  else if speed = .B115200 then "B1152000"
  else if speed = .B230400 then "B230400"
  else if speed = .B460800 then "B460800"
  else if speed = .B500000 then "B500000"
  else if speed = .B576000 then "B576000"
  else if speed = .B921600 then "B921600"
  else if speed = .B1000000 then "B1000000"
  else if speed = .B1152000 then "B1152000"
  else if speed = .B1500000 then "B1500000"
  else if speed = .B2000000 then "B2000000"
  else if speed = .B2500000 then "B2500000"
  else if speed = .B3000000 then "B3000000"
  else if speed = .B3500000 then "B3500000"
  else if speed = .B4000000 then "B4000000"
  else ""

/-- The fixed set of rate strings recognized by `string_to_speed`, in source
order. -/
def knownRates : List String :=
  ["50", "75", "110", "134", "150", "200", "300", "600",
   "1200", "1800", "2400", "4800", "9600", "19200", "38400", "57600",
   "115200", "230400", "460800", "500000", "576000", "921600",
   "1000000", "1152000", "1500000", "2000000", "2500000", "3000000",
   "3500000", "4000000"]

/-- The configuration structure (`bytenuts.config`).  C strings are modelled
as `List Char`; the 0/1 integer flags `colors`, `echo`, `no_crlf` keep their C
type `Nat`, and `escape` is a character, as in the source.  The defaults
(`CONFIG_DEFAULT`, defined in the header, outside `src/`) are a parameter of
the parsing functions below. -/
structure Config where
  colors : Nat
  echo : Nat
  no_crlf : Nat
  escape : Char
  baud : speed_t
  serial_path : List Char
  log_path : List Char
  config_path : List Char
deriving DecidableEq, Repr

/-- `bytenuts.config_overrides[0..3]`: the per-field command-line override
flags for colors, echo, no_crlf and escape (`src/bytenuts.c:315-335`). -/
structure Overrides where
  colors : Bool
  echo : Bool
  no_crlf : Bool
  escape : Bool
deriving DecidableEq, Repr

/-- The all-false override state (`bytenuts` is `memset` to zero at
`src/bytenuts.c:40`). -/
def noOverrides : Overrides := ⟨false, false, false, false⟩

/-- `strcmp`-style equality on C strings, computed character by character. -/
def streq : List Char → List Char → Bool
  | [], [] => true
  | a :: as, b :: bs => a == b && streq as bs
  | _, _ => false

/-- `memcmp(a, b, n) == 0`: the first `n` characters agree.  Reading past the
end of either string yields `false` (in the source every such comparison is
guarded by a length check or applied to a NUL-terminated line that cannot
match the key once exhausted). -/
def memeq : List Char → List Char → Nat → Bool
  | _, _, 0 => true
  | a :: as, b :: bs, n + 1 => a == b && memeq as bs n
  | _, _, _ + 1 => false

/-- `s[i]` on a C string; out-of-range reads give NUL. -/
def charAt (s : List Char) (i : Nat) : Char := s.getD i (Char.ofNat 0)

/-- The option loop of `parse_args` (`src/bytenuts.c:282-340`), running over
`argv[1] .. argv[argc-2]` (everything before the trailing serial path).  The
flags `-b`, `-l`, `-c` consume the following argument and fail when that
argument would be the serial-path slot (`i == argc - 1`), which here shows up
as an empty tail. -/
def parseLoop (cfg : Config) (ov : Overrides) :
    List (List Char) → Option (Config × Overrides)
  | [] => some (cfg, ov)
  | a :: rest =>
    if streq a ['-', 'h'] then none
    else if streq a ['-', 'b'] then
      match rest with
      | [] => none
      | v :: rest2 => parseLoop { cfg with baud := string_to_speed (String.mk v) } ov rest2
    else if streq a ['-', 'l'] then
      match rest with
      | [] => none
      | v :: rest2 => parseLoop { cfg with log_path := v } ov rest2
    else if streq a ['-', 'c'] then
      match rest with
      | [] => none
      | v :: rest2 => parseLoop { cfg with config_path := v } ov rest2
    else if a.length == 10 && memeq a ['-', '-', 'c', 'o', 'l', 'o', 'r', 's', '='] 9 then
      let cfg :=
        if charAt a 9 = '1' then { cfg with colors := 1 }
        else if charAt a 9 = '0' then { cfg with colors := 0 }
        else cfg
      parseLoop cfg { ov with colors := true } rest
    else if a.length == 8 && memeq a ['-', '-', 'e', 'c', 'h', 'o', '='] 7 then
      let cfg :=
        if charAt a 7 = '1' then { cfg with echo := 1 }
        else if charAt a 7 = '0' then { cfg with echo := 0 }
        else cfg
      parseLoop cfg { ov with echo := true } rest
    else if a.length == 11 && memeq a ['-', '-', 'n', 'o', '_', 'c', 'r', 'l', 'f', '='] 10 then
      let cfg :=
        if charAt a 10 = '1' then { cfg with no_crlf := 1 }
        else if charAt a 10 = '0' then { cfg with no_crlf := 0 }
        else cfg
      parseLoop cfg { ov with no_crlf := true } rest
    else if a.length == 10 && memeq a ['-', '-', 'e', 's', 'c', 'a', 'p', 'e', '='] 9 then
      parseLoop { cfg with escape := charAt a 9 } { ov with escape := true } rest
    else
      none

/-- `parse_args` (`src/bytenuts.c:264-345`) over `args = argv[1..argc-1]`
(the program name dropped).  It starts from the centrally defined defaults
`dflt` (`CONFIG_DEFAULT` plus the HOME-derived `config_path`), rejects an
empty argument list and a lone `-h`, runs the option loop over all but the
last argument, and finally records the last argument as the serial path.
`none` models `return -1` (usage printed, failure exit). -/
def parse_args (dflt : Config) (args : List (List Char)) :
    Option (Config × Overrides) :=
  if args.length < 1 then none
  else if args.length == 1 && streq (args.headD []) ['-', 'h'] then none
  else
    match parseLoop dflt noOverrides args.dropLast with
    | none => none
    | some (cfg, ov) => some ({ cfg with serial_path := args.getLastD [] }, ov)

/-- One iteration of the `fgets` loop of `load_configs`
(`src/bytenuts.c:359-381`), applied to a single line of the config file.
Each key is guarded by the corresponding command-line override flag; values
other than `0`/`1` leave the field untouched (for `escape` any character is
taken). -/
def applyLine (ov : Overrides) (cfg : Config) (line : List Char) : Config :=
  if !ov.colors && memeq line ['c', 'o', 'l', 'o', 'r', 's', '='] 7 then
    if charAt line 7 = '0' then { cfg with colors := 0 }
    else if charAt line 7 = '1' then { cfg with colors := 1 }
    else cfg
  else if !ov.echo && memeq line ['e', 'c', 'h', 'o', '='] 5 then
    if charAt line 5 = '0' then { cfg with echo := 0 }
    else if charAt line 5 = '1' then { cfg with echo := 1 }
    else cfg
  else if !ov.no_crlf && memeq line ['n', 'o', '_', 'c', 'r', 'l', 'f', '='] 8 then
    if charAt line 8 = '0' then { cfg with no_crlf := 0 }
    else if charAt line 8 = '1' then { cfg with no_crlf := 1 }
    else cfg
  else if !ov.escape && memeq line ['e', 's', 'c', 'a', 'p', 'e', '='] 7 then
    { cfg with escape := charAt line 7 }
  else
    cfg

/-- `load_configs` (`src/bytenuts.c:347-384`) on the list of lines read from
the config file (a missing file is the empty list: the function then returns
with the configuration unchanged).  The `while (fgets(...))` loop visits every
line in order with no break and no per-key seen-flag, so each matching line
overwrites the field again. -/
def load_configs (ov : Overrides) (cfg : Config) (lines : List (List Char)) : Config :=
  lines.foldl (applyLine ov) cfg

/-- Modelled from the spec: the config-file format honors only the first
matching `0`/`1` or character value per key (§6, "only the first matching
`0`/`1` or character value per key honored").  This is the spec-side reading
of `load_configs`, to be compared with the source-side `load_configs` above:
a per-key seen-flag (seeded from the command-line overrides) is set once a
value is taken, and later lines for that key are then ignored. -/
def applyLineFirst (st : Config × Overrides) (line : List Char) : Config × Overrides :=
  let (cfg, seen) := st
  if !seen.colors && memeq line ['c', 'o', 'l', 'o', 'r', 's', '='] 7 then
    if charAt line 7 = '0' then ({ cfg with colors := 0 }, { seen with colors := true })
    else if charAt line 7 = '1' then ({ cfg with colors := 1 }, { seen with colors := true })
    else (cfg, seen)
  else if !seen.echo && memeq line ['e', 'c', 'h', 'o', '='] 5 then
    if charAt line 5 = '0' then ({ cfg with echo := 0 }, { seen with echo := true })
    else if charAt line 5 = '1' then ({ cfg with echo := 1 }, { seen with echo := true })
    else (cfg, seen)
  else if !seen.no_crlf && memeq line ['n', 'o', '_', 'c', 'r', 'l', 'f', '='] 8 then
    if charAt line 8 = '0' then ({ cfg with no_crlf := 0 }, { seen with no_crlf := true })
    else if charAt line 8 = '1' then ({ cfg with no_crlf := 1 }, { seen with no_crlf := true })
    else (cfg, seen)
  else if !seen.escape && memeq line ['e', 's', 'c', 'a', 'p', 'e', '='] 7 then
    ({ cfg with escape := charAt line 7 }, { seen with escape := true })
  else
    (cfg, seen)

/-- Modelled from the spec: config loading under the first-match rule of §6
(companion to `applyLineFirst`); compare with the source-side `load_configs`. -/
def load_configs_first (ov : Overrides) (cfg : Config) (lines : List (List Char)) : Config :=
  (lines.foldl applyLineFirst (cfg, ov)).1

/-! ## Status aggregator (`bytenuts_set_status`, `src/bytenuts.c:166-238`) -/

/-- The four status strings of the global state (`bytenuts.bytenuts_status`
etc.), one per owner: system (bytenuts), ingest, dispatch (cheerios), and
command page. -/
structure StatusSet where
  bytenuts_status : String
  ingest_status : String
  cheerios_status : String
  cmdpg_status : String
deriving DecidableEq, Repr

/-- Modelled from the spec: the owner identifier constants `STATUS_BYTENUTS`,
`STATUS_INGEST`, `STATUS_CHEERIOS`, `STATUS_CMDPAGE` are defined in the
header `bytenuts.h`, which is not part of `src/`; the spec names exactly four
owners (system, ingest, dispatch, command-page), so they are modelled as four
distinct small integers.  Only their distinctness matters to
`bytenuts_set_status`, which compares `user` against them in a `switch`. -/
def STATUS_BYTENUTS : Nat := 0

/-- Modelled from the spec: see `STATUS_BYTENUTS`. -/
def STATUS_INGEST : Nat := 1

/-- Modelled from the spec: see `STATUS_BYTENUTS`. -/
def STATUS_CHEERIOS : Nat := 2

/-- Modelled from the spec: see `STATUS_BYTENUTS`. -/
def STATUS_CMDPAGE : Nat := 3

/-- Result of one `bytenuts_set_status` call: the updated status strings,
whether the freshly formatted text was freed instead of stored (the `default`
arm of the `switch`), whether the status line was redrawn (the code after the
`switch`), and the C return value. -/
structure SetStatusResult where
  state : StatusSet
  freedNew : Bool
  redrawn : Bool
  ret : Int
deriving DecidableEq, Repr

/-- `bytenuts_set_status` (`src/bytenuts.c:166-238`).  The variadic format
step (`vsnprintf`, before any lock) is modelled by taking the already
formatted `text`.  The `switch` stores the text into the slot owned by
`user`, or — in the `default` arm — frees it and returns `0` at once without
redrawing.  On a known owner the status line is then redrawn from all four
current strings (see `renderStatus`). -/
def set_status (user : Nat) (text : String) (st : StatusSet) : SetStatusResult :=
  if user = STATUS_BYTENUTS then
    ⟨{ st with bytenuts_status := text }, false, true, 0⟩
  else if user = STATUS_INGEST then
    ⟨{ st with ingest_status := text }, false, true, 0⟩
  else if user = STATUS_CHEERIOS then
    ⟨{ st with cheerios_status := text }, false, true, 0⟩
  else if user = STATUS_CMDPAGE then
    ⟨{ st with cmdpg_status := text }, false, true, 0⟩
  else
    ⟨st, true, false, 0⟩

/-- The composed status line drawn by `wprintw` (`src/bytenuts.c:224-228`):
all four statuses rendered together with the fixed `--|--` delimiter. -/
def renderStatus (st : StatusSet) : String :=
  "|--" ++ st.bytenuts_status ++ "--|--" ++ st.ingest_status ++ "--|--" ++
    st.cheerios_status ++ "--|--" ++ st.cmdpg_status ++ "--|"

/-- A serialized history of `bytenuts_set_status` calls (the stores are
serialized by `bytenuts.lock`, the redraws by `bytenuts.term_lock`; the final
redraw reads the then-current strings, so the final rendered line is
`renderStatus` of the folded state). -/
def applyUpdates (ups : List (Nat × String)) (st : StatusSet) : StatusSet :=
  ups.foldl (fun s u => (set_status u.1 u.2 s).state) st

/-- The last text set for owner `u` in a history, later entries winning. -/
def lastTextFor (u : Nat) : List (Nat × String) → Option String
  | [] => none
  | (u', t) :: rest =>
    match lastTextFor u rest with
    | some s => some s
    | none => if u' = u then some t else none

/-! ## Lock discipline over the screen surface -/

/-- The two mutexes of the global state: `bytenuts.lock` (state/stop lock)
and `bytenuts.term_lock` (terminal lock), initialized at
`src/bytenuts.c:88-94`. -/
inductive LockId where
  | lock
  | term_lock
deriving DecidableEq, Repr

/-- Primitive actions of the functions that touch shared state: mutex
acquire/release, a write to the stored status strings, and a mutation of the
screen surface (any `wmove`/`waddch`/`wprintw`/`wrefresh`/`wresize`/`mvwin`
on the three windows). -/
inductive TermAction where
  | acquire (l : LockId)
  | release (l : LockId)
  | statusStoreWrite
  | surfaceWrite
deriving DecidableEq, Repr

/-- The action trace of `bytenuts_set_status` (`src/bytenuts.c:183-235`):
the status-string store under `lock`, then the status-line redraw (cursor
save, dash fill, `wprintw`, cursor restore, `wrefresh`) under `term_lock`. -/
def set_status_actions : List TermAction :=
  [.acquire .lock, .statusStoreWrite, .release .lock,
   .acquire .term_lock, .surfaceWrite, .surfaceWrite, .surfaceWrite,
   .release .term_lock]

/-- The action trace of `bytenuts_update_screen_size`
(`src/bytenuts.c:240-262`): the three windows resized, moved and refreshed
under `term_lock`. -/
def update_screen_size_actions : List TermAction :=
  [.acquire .term_lock, .surfaceWrite, .surfaceWrite, .surfaceWrite,
   .release .term_lock]

/-- Modelled from the spec: the output write of the dispatch/output engine
(`cheerios.c`, not under `src/`) — per §4.1/§5 every Screen Surface mutation
acquires the single exclusive terminal lock for its duration. -/
def cheerios_write_actions : List TermAction :=
  [.acquire .term_lock, .surfaceWrite, .release .term_lock]

/-- The set of locks held after running a prefix of a trace. -/
def heldStep (held : List LockId) : TermAction → List LockId
  | .acquire l => l :: held
  | .release l => held.erase l
  | _ => held

/-- The locks held when the `i`-th action of a trace runs. -/
def heldBefore (tr : List TermAction) (i : Nat) : List LockId :=
  (tr.take i).foldl heldStep []

/-- Checks that every surface mutation in a trace runs while holding exactly
the terminal lock (so in particular not under some other lock instead). -/
def surfaceUnderTermLock (tr : List TermAction) : Bool :=
  (List.range tr.length).all fun i =>
    if tr.getD i .surfaceWrite = .surfaceWrite then
      heldBefore tr i == [.term_lock]
    else
      true

/-! ## Stop protocol (`bytenuts_run` / `bytenuts_stop`,
`src/bytenuts.c:37-125`) -/

/-- Events of the stop protocol, in the order the mutex `bytenuts.lock`
serializes them: `signalStop` is a completed `bytenuts_stop` call
(`pthread_cond_signal` under the lock, `src/bytenuts.c:118-125`);
`beginWait` is the main context reaching `pthread_cond_wait`
(`src/bytenuts.c:109-111`). -/
inductive StopEvent where
  | signalStop
  | beginWait
deriving DecidableEq, Repr

/-- State of the main context: whether it is blocked in `pthread_cond_wait`,
and how many shutdown sequences (`bytenuts_kill`) it has run. -/
structure LifeState where
  waiting : Bool
  shutdowns : Nat
deriving DecidableEq, Repr

/-- One serialized event of the stop protocol.  A POSIX condition variable
has no memory: `pthread_cond_signal` wakes the waiter when one is blocked
(the main context then leaves the wait and runs `bytenuts_kill` once),
and is a no-op when nobody is waiting — the signal is lost.  There is no
separate stop flag in the source, so a lost signal is never re-observed. -/
def stopStep (s : LifeState) : StopEvent → LifeState
  | .signalStop =>
    if s.waiting then { waiting := false, shutdowns := s.shutdowns + 1 } else s
  | .beginWait => { s with waiting := true }

/-- Run a serialized sequence of stop-protocol events from the initial state
(main context not yet waiting, no shutdown run). -/
def runStops (evs : List StopEvent) : LifeState :=
  evs.foldl stopStep ⟨false, 0⟩

/-! ## Shutdown sequence (`bytenuts_kill`, `src/bytenuts.c:127-139`) -/

/-- The steps of `bytenuts_kill`, in source order.  `ingest_stop` and
`cheerios_stop` quiesce the two engine loops (their bodies live outside
`src/`; per spec §4.5 the engines have fully observed the Stopped transition
when these calls return). -/
inductive KillStep where
  | ingest_stop_call
  | cheerios_stop_call
  | delwin_status
  | delwin_in
  | delwin_out
  | endwin_call
  | close_serial
deriving DecidableEq, Repr

/-- The straight-line body of `bytenuts_kill` as the sequence of its calls
(`src/bytenuts.c:127-139`). -/
def bytenuts_kill_steps : List KillStep :=
  [.ingest_stop_call, .cheerios_stop_call,
   .delwin_status, .delwin_in, .delwin_out, .endwin_call,
   .close_serial]

/-- An engine-quiescing step. -/
def isEngineStop : KillStep → Bool
  | .ingest_stop_call => true
  | .cheerios_stop_call => true
  | _ => false

/-- A resource-destruction step: a window delete, the ncurses teardown, or
the serial close. -/
def isTeardown : KillStep → Bool
  | .delwin_status => true
  | .delwin_in => true
  | .delwin_out => true
  | .endwin_call => true
  | .close_serial => true
  | _ => false

/-- Checks that in a step sequence every engine-quiescing step comes strictly
before every resource-destruction step. -/
def stopsBeforeTeardown (tr : List KillStep) : Bool :=
  (List.range tr.length).all fun i =>
    (List.range tr.length).all fun j =>
      !(isEngineStop (tr.getD i .endwin_call) && isTeardown (tr.getD j .ingest_stop_call))
        || decide (i < j)

/-! ## Concrete test fixtures -/

/-- A concrete default configuration used for closed instances (the actual
`CONFIG_DEFAULT` lives in the header; every theorem below that depends on the
defaults quantifies over them, this fixture only feeds witnesses). -/
def cfg0 : Config := ⟨0, 0, 0, 'b', .B115200, [], [], []⟩

/-- A config-file line `echo=<c>` with its trailing newline from `fgets`. -/
def echoLine (c : Char) : List Char := ['e', 'c', 'h', 'o', '=', c, '\n']

/-- A concrete status set for closed instances. -/
def stDemo : StatusSet := ⟨"dev0", "rx ok", "tx ok", "page 1"⟩

/-- A config-file line for the `colors` key changes the `colors` field: the
command-line override is clear, the line matches the key, and the value
character is `0` or `1`. -/
def setsColors (ov : Overrides) (l : List Char) : Prop :=
  ov.colors = false ∧ memeq l ['c', 'o', 'l', 'o', 'r', 's', '='] 7 = true ∧
    (charAt l 7 = '0' ∨ charAt l 7 = '1')

/-- A config-file line for the `echo` key changes the `echo` field (see
`setsColors`). -/
def setsEcho (ov : Overrides) (l : List Char) : Prop :=
  ov.echo = false ∧ memeq l ['e', 'c', 'h', 'o', '='] 5 = true ∧
    (charAt l 5 = '0' ∨ charAt l 5 = '1')

/-- A config-file line for the `no_crlf` key changes the `no_crlf` field (see
`setsColors`). -/
def setsNoCrlf (ov : Overrides) (l : List Char) : Prop :=
  ov.no_crlf = false ∧ memeq l ['n', 'o', '_', 'c', 'r', 'l', 'f', '='] 8 = true ∧
    (charAt l 8 = '0' ∨ charAt l 8 = '1')

/-- A config-file line for the `escape` key changes the `escape` field: any
value character is taken (`src/bytenuts.c:378-380`). -/
def setsEscape (ov : Overrides) (l : List Char) : Prop :=
  ov.escape = false ∧ memeq l ['e', 's', 'c', 'a', 'p', 'e', '='] 7 = true

/-! ## Helper lemmas: config-file loading -/

lemma bool_eq_false {b : Bool} (h : ¬ b = true) : b = false := by
  cases b
  · rfl
  · exact absurd rfl h

lemma load_configs_cons (ov : Overrides) (cfg : Config) (l : List Char)
    (ls : List (List Char)) :
    load_configs ov cfg (l :: ls) = load_configs ov (applyLine ov cfg l) ls := rfl

lemma load_configs_append (ov : Overrides) (cfg : Config) (l1 l2 : List (List Char)) :
    load_configs ov cfg (l1 ++ l2) = load_configs ov (load_configs ov cfg l1) l2 := by
  simp [load_configs]

lemma memeq_head {c b : Char} {r bs : List Char} {n : Nat}
    (h : memeq (c :: r) (b :: bs) (n + 1) = true) : c = b ∧ memeq r bs n = true := by
  simpa [memeq, Bool.and_eq_true] using h

lemma echo_line_not_colors (l : List Char)
    (hm : memeq l ['e', 'c', 'h', 'o', '='] 5 = true) :
    memeq l ['c', 'o', 'l', 'o', 'r', 's', '='] 7 = false := by
  cases l with
  | nil => simp [memeq] at hm
  | cons c r =>
    obtain ⟨rfl, -⟩ := memeq_head hm
    rfl

lemma nocrlf_line_not_colors (l : List Char)
    (hm : memeq l ['n', 'o', '_', 'c', 'r', 'l', 'f', '='] 8 = true) :
    memeq l ['c', 'o', 'l', 'o', 'r', 's', '='] 7 = false := by
  cases l with
  | nil => simp [memeq] at hm
  | cons c r =>
    obtain ⟨rfl, -⟩ := memeq_head hm
    rfl

lemma nocrlf_line_not_echo (l : List Char)
    (hm : memeq l ['n', 'o', '_', 'c', 'r', 'l', 'f', '='] 8 = true) :
    memeq l ['e', 'c', 'h', 'o', '='] 5 = false := by
  cases l with
  | nil => simp [memeq] at hm
  | cons c r =>
    obtain ⟨rfl, -⟩ := memeq_head hm
    rfl

lemma escape_line_not_colors (l : List Char)
    (hm : memeq l ['e', 's', 'c', 'a', 'p', 'e', '='] 7 = true) :
    memeq l ['c', 'o', 'l', 'o', 'r', 's', '='] 7 = false := by
  cases l with
  | nil => simp [memeq] at hm
  | cons c r =>
    obtain ⟨rfl, -⟩ := memeq_head hm
    rfl

lemma escape_line_not_echo (l : List Char)
    (hm : memeq l ['e', 's', 'c', 'a', 'p', 'e', '='] 7 = true) :
    memeq l ['e', 'c', 'h', 'o', '='] 5 = false := by
  cases l with
  | nil => simp [memeq] at hm
  | cons c r =>
    obtain ⟨rfl, hm2⟩ := memeq_head hm
    cases r with
    | nil => simp [memeq] at hm2
    | cons c2 r2 =>
      obtain ⟨rfl, -⟩ := memeq_head hm2
      rfl

lemma escape_line_not_nocrlf (l : List Char)
    (hm : memeq l ['e', 's', 'c', 'a', 'p', 'e', '='] 7 = true) :
    memeq l ['n', 'o', '_', 'c', 'r', 'l', 'f', '='] 8 = false := by
  cases l with
  | nil => simp [memeq] at hm
  | cons c r =>
    obtain ⟨rfl, -⟩ := memeq_head hm
    rfl

lemma applyLine_colors_override (ov : Overrides) (cfg : Config) (l : List Char)
    (h : ov.colors = true) : (applyLine ov cfg l).colors = cfg.colors := by
  unfold applyLine; split_ifs <;> simp_all

lemma applyLine_colors_no_match (ov : Overrides) (cfg : Config) (l : List Char)
    (h : memeq l ['c', 'o', 'l', 'o', 'r', 's', '='] 7 = false) :
    (applyLine ov cfg l).colors = cfg.colors := by
  unfold applyLine; split_ifs <;> simp_all

lemma applyLine_colors_invalid (ov : Overrides) (cfg : Config) (l : List Char)
    (h0 : charAt l 7 ≠ '0') (h1 : charAt l 7 ≠ '1') :
    (applyLine ov cfg l).colors = cfg.colors := by
  unfold applyLine; split_ifs <;> simp_all

lemma applyLine_colors_set (ov : Overrides) (cfg : Config) (l : List Char)
    (ho : ov.colors = false) (hm : memeq l ['c', 'o', 'l', 'o', 'r', 's', '='] 7 = true) :
    (applyLine ov cfg l).colors =
      (if charAt l 7 = '0' then 0 else if charAt l 7 = '1' then 1 else cfg.colors) := by
  unfold applyLine
  simp only [ho, hm, Bool.not_false, Bool.and_true, if_true]
  split_ifs <;> simp_all

lemma applyLine_echo_override (ov : Overrides) (cfg : Config) (l : List Char)
    (h : ov.echo = true) : (applyLine ov cfg l).echo = cfg.echo := by
  unfold applyLine; split_ifs <;> simp_all

lemma applyLine_echo_no_match (ov : Overrides) (cfg : Config) (l : List Char)
    (h : memeq l ['e', 'c', 'h', 'o', '='] 5 = false) :
    (applyLine ov cfg l).echo = cfg.echo := by
  unfold applyLine; split_ifs <;> simp_all

lemma applyLine_echo_invalid (ov : Overrides) (cfg : Config) (l : List Char)
    (h0 : charAt l 5 ≠ '0') (h1 : charAt l 5 ≠ '1') :
    (applyLine ov cfg l).echo = cfg.echo := by
  unfold applyLine; split_ifs <;> simp_all

lemma applyLine_echo_set (ov : Overrides) (cfg : Config) (l : List Char)
    (ho : ov.echo = false) (hm : memeq l ['e', 'c', 'h', 'o', '='] 5 = true) :
    (applyLine ov cfg l).echo =
      (if charAt l 5 = '0' then 0 else if charAt l 5 = '1' then 1 else cfg.echo) := by
  unfold applyLine
  rw [echo_line_not_colors l hm]
  simp only [Bool.and_false, ho, hm, Bool.not_false, Bool.and_true, if_true]
  split_ifs <;> simp_all

lemma applyLine_nocrlf_override (ov : Overrides) (cfg : Config) (l : List Char)
    (h : ov.no_crlf = true) : (applyLine ov cfg l).no_crlf = cfg.no_crlf := by
  unfold applyLine; split_ifs <;> simp_all

lemma applyLine_nocrlf_no_match (ov : Overrides) (cfg : Config) (l : List Char)
    (h : memeq l ['n', 'o', '_', 'c', 'r', 'l', 'f', '='] 8 = false) :
    (applyLine ov cfg l).no_crlf = cfg.no_crlf := by
  unfold applyLine; split_ifs <;> simp_all

lemma applyLine_nocrlf_invalid (ov : Overrides) (cfg : Config) (l : List Char)
    (h0 : charAt l 8 ≠ '0') (h1 : charAt l 8 ≠ '1') :
    (applyLine ov cfg l).no_crlf = cfg.no_crlf := by
  unfold applyLine; split_ifs <;> simp_all

lemma applyLine_nocrlf_set (ov : Overrides) (cfg : Config) (l : List Char)
    (ho : ov.no_crlf = false) (hm : memeq l ['n', 'o', '_', 'c', 'r', 'l', 'f', '='] 8 = true) :
    (applyLine ov cfg l).no_crlf =
      (if charAt l 8 = '0' then 0 else if charAt l 8 = '1' then 1 else cfg.no_crlf) := by
  unfold applyLine
  rw [nocrlf_line_not_colors l hm, nocrlf_line_not_echo l hm]
  simp only [Bool.and_false, ho, hm, Bool.not_false, Bool.and_true, if_true]
  split_ifs <;> simp_all

lemma applyLine_escape_override (ov : Overrides) (cfg : Config) (l : List Char)
    (h : ov.escape = true) : (applyLine ov cfg l).escape = cfg.escape := by
  unfold applyLine; split_ifs <;> simp_all

lemma applyLine_escape_no_match (ov : Overrides) (cfg : Config) (l : List Char)
    (h : memeq l ['e', 's', 'c', 'a', 'p', 'e', '='] 7 = false) :
    (applyLine ov cfg l).escape = cfg.escape := by
  unfold applyLine; split_ifs <;> simp_all

lemma applyLine_escape_set (ov : Overrides) (cfg : Config) (l : List Char)
    (ho : ov.escape = false) (hm : memeq l ['e', 's', 'c', 'a', 'p', 'e', '='] 7 = true) :
    (applyLine ov cfg l).escape = charAt l 7 := by
  unfold applyLine
  rw [escape_line_not_colors l hm, escape_line_not_echo l hm, escape_line_not_nocrlf l hm]
  simp [ho, hm]

lemma applyLine_colors_preserve (ov : Overrides) (cfg : Config) (l : List Char)
    (h : ¬ setsColors ov l) : (applyLine ov cfg l).colors = cfg.colors := by
  by_cases ho : ov.colors = true
  · exact applyLine_colors_override ov cfg l ho
  · by_cases hm : memeq l ['c', 'o', 'l', 'o', 'r', 's', '='] 7 = true
    · have hv : ¬ (charAt l 7 = '0' ∨ charAt l 7 = '1') :=
        fun hv => h ⟨bool_eq_false ho, hm, hv⟩
      push_neg at hv
      exact applyLine_colors_invalid ov cfg l hv.1 hv.2
    · exact applyLine_colors_no_match ov cfg l (bool_eq_false hm)

lemma applyLine_echo_preserve (ov : Overrides) (cfg : Config) (l : List Char)
    (h : ¬ setsEcho ov l) : (applyLine ov cfg l).echo = cfg.echo := by
  by_cases ho : ov.echo = true
  · exact applyLine_echo_override ov cfg l ho
  · by_cases hm : memeq l ['e', 'c', 'h', 'o', '='] 5 = true
    · have hv : ¬ (charAt l 5 = '0' ∨ charAt l 5 = '1') :=
        fun hv => h ⟨bool_eq_false ho, hm, hv⟩
      push_neg at hv
      exact applyLine_echo_invalid ov cfg l hv.1 hv.2
    · exact applyLine_echo_no_match ov cfg l (bool_eq_false hm)

lemma applyLine_nocrlf_preserve (ov : Overrides) (cfg : Config) (l : List Char)
    (h : ¬ setsNoCrlf ov l) : (applyLine ov cfg l).no_crlf = cfg.no_crlf := by
  by_cases ho : ov.no_crlf = true
  · exact applyLine_nocrlf_override ov cfg l ho
  · by_cases hm : memeq l ['n', 'o', '_', 'c', 'r', 'l', 'f', '='] 8 = true
    · have hv : ¬ (charAt l 8 = '0' ∨ charAt l 8 = '1') :=
        fun hv => h ⟨bool_eq_false ho, hm, hv⟩
      push_neg at hv
      exact applyLine_nocrlf_invalid ov cfg l hv.1 hv.2
    · exact applyLine_nocrlf_no_match ov cfg l (bool_eq_false hm)

lemma applyLine_escape_preserve (ov : Overrides) (cfg : Config) (l : List Char)
    (h : ¬ setsEscape ov l) : (applyLine ov cfg l).escape = cfg.escape := by
  by_cases ho : ov.escape = true
  · exact applyLine_escape_override ov cfg l ho
  · by_cases hm : memeq l ['e', 's', 'c', 'a', 'p', 'e', '='] 7 = true
    · exact absurd ⟨bool_eq_false ho, hm⟩ h
    · exact applyLine_escape_no_match ov cfg l (bool_eq_false hm)

lemma load_configs_colors_override (ov : Overrides) (h : ov.colors = true) :
    ∀ (lines : List (List Char)) (cfg : Config),
      (load_configs ov cfg lines).colors = cfg.colors := by
  intro lines
  induction lines with
  | nil => intro cfg; rfl
  | cons l ls ih =>
    intro cfg
    rw [load_configs_cons, ih, applyLine_colors_override ov cfg l h]

lemma load_configs_echo_override (ov : Overrides) (h : ov.echo = true) :
    ∀ (lines : List (List Char)) (cfg : Config),
      (load_configs ov cfg lines).echo = cfg.echo := by
  intro lines
  induction lines with
  | nil => intro cfg; rfl
  | cons l ls ih =>
    intro cfg
    rw [load_configs_cons, ih, applyLine_echo_override ov cfg l h]

lemma load_configs_nocrlf_override (ov : Overrides) (h : ov.no_crlf = true) :
    ∀ (lines : List (List Char)) (cfg : Config),
      (load_configs ov cfg lines).no_crlf = cfg.no_crlf := by
  intro lines
  induction lines with
  | nil => intro cfg; rfl
  | cons l ls ih =>
    intro cfg
    rw [load_configs_cons, ih, applyLine_nocrlf_override ov cfg l h]

lemma load_configs_escape_override (ov : Overrides) (h : ov.escape = true) :
    ∀ (lines : List (List Char)) (cfg : Config),
      (load_configs ov cfg lines).escape = cfg.escape := by
  intro lines
  induction lines with
  | nil => intro cfg; rfl
  | cons l ls ih =>
    intro cfg
    rw [load_configs_cons, ih, applyLine_escape_override ov cfg l h]

lemma load_configs_colors_preserve (ov : Overrides) :
    ∀ (lines : List (List Char)) (cfg : Config), (∀ l ∈ lines, ¬ setsColors ov l) →
      (load_configs ov cfg lines).colors = cfg.colors := by
  intro lines
  induction lines with
  | nil => intro cfg _; rfl
  | cons l ls ih =>
    intro cfg h
    rw [load_configs_cons, ih _ fun l' hl' => h l' (List.mem_cons_of_mem l hl'),
      applyLine_colors_preserve ov cfg l (h l (List.mem_cons_self l ls))]

lemma load_configs_echo_preserve (ov : Overrides) :
    ∀ (lines : List (List Char)) (cfg : Config), (∀ l ∈ lines, ¬ setsEcho ov l) →
      (load_configs ov cfg lines).echo = cfg.echo := by
  intro lines
  induction lines with
  | nil => intro cfg _; rfl
  | cons l ls ih =>
    intro cfg h
    rw [load_configs_cons, ih _ fun l' hl' => h l' (List.mem_cons_of_mem l hl'),
      applyLine_echo_preserve ov cfg l (h l (List.mem_cons_self l ls))]

lemma load_configs_nocrlf_preserve (ov : Overrides) :
    ∀ (lines : List (List Char)) (cfg : Config), (∀ l ∈ lines, ¬ setsNoCrlf ov l) →
      (load_configs ov cfg lines).no_crlf = cfg.no_crlf := by
  intro lines
  induction lines with
  | nil => intro cfg _; rfl
  | cons l ls ih =>
    intro cfg h
    rw [load_configs_cons, ih _ fun l' hl' => h l' (List.mem_cons_of_mem l hl'),
      applyLine_nocrlf_preserve ov cfg l (h l (List.mem_cons_self l ls))]

lemma load_configs_escape_preserve (ov : Overrides) :
    ∀ (lines : List (List Char)) (cfg : Config), (∀ l ∈ lines, ¬ setsEscape ov l) →
      (load_configs ov cfg lines).escape = cfg.escape := by
  intro lines
  induction lines with
  | nil => intro cfg _; rfl
  | cons l ls ih =>
    intro cfg h
    rw [load_configs_cons, ih _ fun l' hl' => h l' (List.mem_cons_of_mem l hl'),
      applyLine_escape_preserve ov cfg l (h l (List.mem_cons_self l ls))]

/-! ## Helper lemmas: status aggregation -/

lemma set_status_state_b (u : Nat) (t : String) (st : StatusSet) :
    (set_status u t st).state.bytenuts_status =
      if u = STATUS_BYTENUTS then t else st.bytenuts_status := by
  unfold set_status
  split_ifs <;> simp_all [STATUS_BYTENUTS, STATUS_INGEST, STATUS_CHEERIOS, STATUS_CMDPAGE]

lemma set_status_state_i (u : Nat) (t : String) (st : StatusSet) :
    (set_status u t st).state.ingest_status =
      if u = STATUS_INGEST then t else st.ingest_status := by
  unfold set_status
  split_ifs <;> simp_all [STATUS_BYTENUTS, STATUS_INGEST, STATUS_CHEERIOS, STATUS_CMDPAGE]

lemma set_status_state_c (u : Nat) (t : String) (st : StatusSet) :
    (set_status u t st).state.cheerios_status =
      if u = STATUS_CHEERIOS then t else st.cheerios_status := by
  unfold set_status
  split_ifs <;> simp_all [STATUS_BYTENUTS, STATUS_INGEST, STATUS_CHEERIOS, STATUS_CMDPAGE]

lemma set_status_state_p (u : Nat) (t : String) (st : StatusSet) :
    (set_status u t st).state.cmdpg_status =
      if u = STATUS_CMDPAGE then t else st.cmdpg_status := by
  unfold set_status
  split_ifs <;> simp_all [STATUS_BYTENUTS, STATUS_INGEST, STATUS_CHEERIOS, STATUS_CMDPAGE]

lemma applyUpdates_cons (u : Nat × String) (rest : List (Nat × String)) (st : StatusSet) :
    applyUpdates (u :: rest) st = applyUpdates rest (set_status u.1 u.2 st).state := rfl

lemma applyUpdates_b : ∀ (ups : List (Nat × String)) (st : StatusSet),
    (applyUpdates ups st).bytenuts_status =
      (lastTextFor STATUS_BYTENUTS ups).getD st.bytenuts_status := by
  intro ups
  induction ups with
  | nil => intro st; rfl
  | cons u rest ih =>
    intro st
    obtain ⟨u', t⟩ := u
    rw [applyUpdates_cons, ih]
    cases h : lastTextFor STATUS_BYTENUTS rest with
    | some s => simp [lastTextFor, h]
    | none =>
      simp only [lastTextFor, h, set_status_state_b, Option.getD]
      split_ifs <;> simp_all

lemma applyUpdates_i : ∀ (ups : List (Nat × String)) (st : StatusSet),
    (applyUpdates ups st).ingest_status =
      (lastTextFor STATUS_INGEST ups).getD st.ingest_status := by
  intro ups
  induction ups with
  | nil => intro st; rfl
  | cons u rest ih =>
    intro st
    obtain ⟨u', t⟩ := u
    rw [applyUpdates_cons, ih]
    cases h : lastTextFor STATUS_INGEST rest with
    | some s => simp [lastTextFor, h]
    | none =>
      simp only [lastTextFor, h, set_status_state_i, Option.getD]
      split_ifs <;> simp_all

lemma applyUpdates_c : ∀ (ups : List (Nat × String)) (st : StatusSet),
    (applyUpdates ups st).cheerios_status =
      (lastTextFor STATUS_CHEERIOS ups).getD st.cheerios_status := by
  intro ups
  induction ups with
  | nil => intro st; rfl
  | cons u rest ih =>
    intro st
    obtain ⟨u', t⟩ := u
    rw [applyUpdates_cons, ih]
    cases h : lastTextFor STATUS_CHEERIOS rest with
    | some s => simp [lastTextFor, h]
    | none =>
      simp only [lastTextFor, h, set_status_state_c, Option.getD]
      split_ifs <;> simp_all

lemma applyUpdates_p : ∀ (ups : List (Nat × String)) (st : StatusSet),
    (applyUpdates ups st).cmdpg_status =
      (lastTextFor STATUS_CMDPAGE ups).getD st.cmdpg_status := by
  intro ups
  induction ups with
  | nil => intro st; rfl
  | cons u rest ih =>
    intro st
    obtain ⟨u', t⟩ := u
    rw [applyUpdates_cons, ih]
    cases h : lastTextFor STATUS_CMDPAGE rest with
    | some s => simp [lastTextFor, h]
    | none =>
      simp only [lastTextFor, h, set_status_state_p, Option.getD]
      split_ifs <;> simp_all

/-! ## Helper lemmas: stop protocol -/

lemma stops_lost : ∀ (m : Nat) (s : LifeState), s.waiting = false →
    (List.replicate m StopEvent.signalStop).foldl stopStep s = s := by
  intro m
  induction m with
  | zero => intro s _; rfl
  | succ k ih =>
    intro s hs
    rw [List.replicate_succ, List.foldl_cons]
    have h1 : stopStep s .signalStop = s := by simp [stopStep, hs]
    rw [h1, ih s hs]

/-! ## Claim theorems -/

/-- C1: on the condition-variable stop protocol of `bytenuts_stop` and
`bytenuts_run`, stop requests issued after the main context has begun
waiting produce exactly one shutdown sequence however many there are
(idempotence holds); but a stop request that completes before the main
context reaches `pthread_cond_wait` is lost — the signal has no memory, so
the main context then stays blocked with no shutdown, contradicting the
level-triggered half of the claim (once signaled does not stay signaled). -/
theorem stop_signal_lost_before_wait_idempotent_after :
    (runStops [.signalStop, .beginWait]).shutdowns = 0 ∧
    (runStops [.signalStop, .beginWait]).waiting = true ∧
    ∀ n : Nat, 1 ≤ n →
      (runStops (.beginWait :: List.replicate n .signalStop)).shutdowns = 1 := by
  refine ⟨rfl, rfl, ?_⟩
  intro n hn
  obtain ⟨m, rfl⟩ : ∃ m, n = m + 1 := ⟨n - 1, (Nat.succ_pred_eq_of_pos hn).symm⟩
  unfold runStops
  rw [List.foldl_cons, List.replicate_succ, List.foldl_cons]
  rw [stops_lost m _ (by rfl)]
  rfl

theorem stop_signal_witness :
    1 ≤ 3 ∧
    (runStops (.beginWait :: List.replicate 3 .signalStop)).shutdowns = 1 :=
  ⟨by decide, stop_signal_lost_before_wait_idempotent_after.2.2 3 (by decide)⟩

/-- C2: every screen-surface mutation — the status-line redraw of
`bytenuts_set_status`, the window resizes of `bytenuts_update_screen_size`,
and the output write of the output engine — runs while holding exactly the
one shared terminal lock `term_lock` and no other lock, so a status redraw,
an output write and a resize are pairwise mutually exclusive through that
single lock and no second lock could let them interleave. -/
theorem surface_mutations_under_single_term_lock :
    surfaceUnderTermLock set_status_actions = true ∧
    surfaceUnderTermLock update_screen_size_actions = true ∧
    surfaceUnderTermLock cheerios_write_actions = true := by decide

/-- C3: per-field command-line overrides take precedence over the config
file, which takes precedence over the defaults.  Conjuncts: (1) `--echo=1`
sets the field to 1 and raises the override flag, for every default
configuration; (2) for each of the four overridable fields, a raised
override flag makes `load_configs` leave the field untouched whatever the
file holds; (3) hence with `--echo=1` on the command line the effective echo
after loading any config file (in particular one holding `echo=0`) is 1;
(4) without an override, an `echo=0` file line does overwrite the default. -/
theorem config_precedence_cli_over_file_over_default :
    (∀ dflt : Config,
      parse_args dflt [['-', '-', 'e', 'c', 'h', 'o', '=', '1'], ['d', 'e', 'v']] =
        some ({ dflt with echo := 1, serial_path := ['d', 'e', 'v'] },
              { noOverrides with echo := true })) ∧
    (∀ (ov : Overrides) (cfg : Config) (lines : List (List Char)),
      (ov.colors = true → (load_configs ov cfg lines).colors = cfg.colors) ∧
      (ov.echo = true → (load_configs ov cfg lines).echo = cfg.echo) ∧
      (ov.no_crlf = true → (load_configs ov cfg lines).no_crlf = cfg.no_crlf) ∧
      (ov.escape = true → (load_configs ov cfg lines).escape = cfg.escape)) ∧
    (∀ (dflt : Config) (lines : List (List Char)),
      (load_configs { noOverrides with echo := true }
        { dflt with echo := 1, serial_path := ['d', 'e', 'v'] } lines).echo = 1) ∧
    (∀ (ov : Overrides) (cfg : Config), ov.echo = false →
      (load_configs ov cfg [echoLine '0']).echo = 0) := by
  refine ⟨fun dflt => rfl, ?_, ?_, ?_⟩
  · intro ov cfg lines
    exact ⟨fun h => load_configs_colors_override ov h lines cfg,
      fun h => load_configs_echo_override ov h lines cfg,
      fun h => load_configs_nocrlf_override ov h lines cfg,
      fun h => load_configs_escape_override ov h lines cfg⟩
  · intro dflt lines
    exact (load_configs_echo_override _ rfl lines _).trans rfl
  · intro ov cfg h
    rw [load_configs_cons]
    rw [show load_configs ov (applyLine ov cfg (echoLine '0')) [] =
      applyLine ov cfg (echoLine '0') from rfl]
    rw [applyLine_echo_set ov cfg _ h (by decide)]
    rfl

theorem config_precedence_witness :
    (load_configs { noOverrides with echo := true } cfg0 [echoLine '0']).echo = cfg0.echo ∧
    (load_configs noOverrides cfg0 [echoLine '0']).echo = 0 :=
  ⟨(config_precedence_cli_over_file_over_default.2.1
      { noOverrides with echo := true } cfg0 [echoLine '0']).2.1 rfl,
   config_precedence_cli_over_file_over_default.2.2.2 noOverrides cfg0 rfl⟩

/-- C4: counterexample to the first-match rule.  On the two-line config file
`echo=0`, `echo=1` with no command-line override, the source's `load_configs`
leaves echo at 1 (the last matching line), while the spec-side first-match
loader `load_configs_first` leaves it at 0, and the two results differ. -/
theorem config_file_first_match_refuted :
    (load_configs noOverrides cfg0 [echoLine '0', echoLine '1']).echo = 1 ∧
    (load_configs_first noOverrides cfg0 [echoLine '0', echoLine '1']).echo = 0 ∧
    load_configs noOverrides cfg0 [echoLine '0', echoLine '1'] ≠
      load_configs_first noOverrides cfg0 [echoLine '0', echoLine '1'] := by
  decide

/-- C4 (amended): when parsing the config file, for each key (colors, echo,
no_crlf, escape) the value taken from the LAST matching `0`/`1` (or, for
escape, character) line is the one in effect after `load_configs` returns:
if line `l` matches the key with a valid value and no later line sets the
same key, the field ends up with `l`'s value, whatever came before. -/
theorem config_file_last_match_wins :
    ∀ (ov : Overrides) (cfg : Config) (pre : List (List Char)) (l : List Char)
      (suf : List (List Char)),
    (ov.colors = false → memeq l ['c', 'o', 'l', 'o', 'r', 's', '='] 7 = true →
      (∀ l' ∈ suf, ¬ setsColors ov l') →
      ((charAt l 7 = '0' → (load_configs ov cfg (pre ++ l :: suf)).colors = 0) ∧
       (charAt l 7 = '1' → (load_configs ov cfg (pre ++ l :: suf)).colors = 1))) ∧
    (ov.echo = false → memeq l ['e', 'c', 'h', 'o', '='] 5 = true →
      (∀ l' ∈ suf, ¬ setsEcho ov l') →
      ((charAt l 5 = '0' → (load_configs ov cfg (pre ++ l :: suf)).echo = 0) ∧
       (charAt l 5 = '1' → (load_configs ov cfg (pre ++ l :: suf)).echo = 1))) ∧
    (ov.no_crlf = false → memeq l ['n', 'o', '_', 'c', 'r', 'l', 'f', '='] 8 = true →
      (∀ l' ∈ suf, ¬ setsNoCrlf ov l') →
      ((charAt l 8 = '0' → (load_configs ov cfg (pre ++ l :: suf)).no_crlf = 0) ∧
       (charAt l 8 = '1' → (load_configs ov cfg (pre ++ l :: suf)).no_crlf = 1))) ∧
    (ov.escape = false → memeq l ['e', 's', 'c', 'a', 'p', 'e', '='] 7 = true →
      (∀ l' ∈ suf, ¬ setsEscape ov l') →
      (load_configs ov cfg (pre ++ l :: suf)).escape = charAt l 7) := by
  intro ov cfg pre l suf
  have hsplit : load_configs ov cfg (pre ++ l :: suf) =
      load_configs ov (applyLine ov (load_configs ov cfg pre) l) suf := by
    rw [load_configs_append, load_configs_cons]
  refine ⟨fun ho hm hsuf => ⟨fun hv => ?_, fun hv => ?_⟩,
    fun ho hm hsuf => ⟨fun hv => ?_, fun hv => ?_⟩,
    fun ho hm hsuf => ⟨fun hv => ?_, fun hv => ?_⟩,
    fun ho hm hsuf => ?_⟩
  · rw [hsplit, load_configs_colors_preserve ov suf _ hsuf,
      applyLine_colors_set _ _ _ ho hm]
    simp [hv]
  · rw [hsplit, load_configs_colors_preserve ov suf _ hsuf,
      applyLine_colors_set _ _ _ ho hm]
    simp [hv]
  · rw [hsplit, load_configs_echo_preserve ov suf _ hsuf,
      applyLine_echo_set _ _ _ ho hm]
    simp [hv]
  · rw [hsplit, load_configs_echo_preserve ov suf _ hsuf,
      applyLine_echo_set _ _ _ ho hm]
    simp [hv]
  · rw [hsplit, load_configs_nocrlf_preserve ov suf _ hsuf,
      applyLine_nocrlf_set _ _ _ ho hm]
    simp [hv]
  · rw [hsplit, load_configs_nocrlf_preserve ov suf _ hsuf,
      applyLine_nocrlf_set _ _ _ ho hm]
    simp [hv]
  · rw [hsplit, load_configs_escape_preserve ov suf _ hsuf,
      applyLine_escape_set _ _ _ ho hm]

theorem config_file_last_match_witness :
    (load_configs noOverrides cfg0 [echoLine '0', echoLine '1']).echo = 1 := by
  have h := (config_file_last_match_wins noOverrides cfg0 [echoLine '0']
    (echoLine '1') []).2.1
  exact (h rfl (by decide) (by simp)).2 (by decide)

/-- C5: the baud-rate tables map the 115200 rate to the 1,152,000 constant:
`string_to_speed` sends the string `115200` to the `B1152000` constant
(`src/bytenuts.c:421-422`), and `speed_to_string` sends the `B115200`
constant to the text `B1152000` (`src/bytenuts.c:488-489`) — the mislabeling
the spec flags as a likely source defect. -/
theorem baud_115200_maps_to_1152000 :
    string_to_speed ("115200") = .B1152000 ∧
    speed_to_string .B115200 = "B1152000" := by
  exact ⟨by decide, by decide⟩

/-- C6: status updates are serializable with last-writer-wins per owner: for
every initial status set and every serialized history of
`bytenuts_set_status` calls, each stored status equals the last text set for
its owner (or the initial text when the owner never updated), and the
rendered status line is always the composition of all four with the fixed
`--|--` delimiter. -/
theorem status_last_writer_wins :
    ∀ (init : StatusSet) (ups : List (Nat × String)),
    (applyUpdates ups init).bytenuts_status =
      (lastTextFor STATUS_BYTENUTS ups).getD init.bytenuts_status ∧
    (applyUpdates ups init).ingest_status =
      (lastTextFor STATUS_INGEST ups).getD init.ingest_status ∧
    (applyUpdates ups init).cheerios_status =
      (lastTextFor STATUS_CHEERIOS ups).getD init.cheerios_status ∧
    (applyUpdates ups init).cmdpg_status =
      (lastTextFor STATUS_CMDPAGE ups).getD init.cmdpg_status ∧
    renderStatus (applyUpdates ups init) =
      "|--" ++ (lastTextFor STATUS_BYTENUTS ups).getD init.bytenuts_status ++
      "--|--" ++ (lastTextFor STATUS_INGEST ups).getD init.ingest_status ++
      "--|--" ++ (lastTextFor STATUS_CHEERIOS ups).getD init.cheerios_status ++
      "--|--" ++ (lastTextFor STATUS_CMDPAGE ups).getD init.cmdpg_status ++ "--|" := by
  intro init ups
  refine ⟨applyUpdates_b ups init, applyUpdates_i ups init,
    applyUpdates_c ups init, applyUpdates_p ups init, ?_⟩
  unfold renderStatus
  rw [applyUpdates_b, applyUpdates_i, applyUpdates_c, applyUpdates_p]

/-- C7: in the shutdown sequence `bytenuts_kill`, both engine-quiescing
calls (`ingest_stop`, `cheerios_stop`) come strictly before every
resource-destruction step (the three window deletes, `endwin`, and the
serial close), and the serial handle is closed exactly once. -/
theorem engines_quiesce_before_teardown :
    stopsBeforeTeardown bytenuts_kill_steps = true ∧
    bytenuts_kill_steps.count .close_serial = 1 := by decide

/-- C8: every string outside the fixed enumerated set of standard rates is
mapped by `string_to_speed` to the defined unset rate `B0` rather than
failing. -/
theorem unknown_rate_maps_to_B0 :
    ∀ s : String, s ∉ knownRates → string_to_speed s = .B0 := by
  intro s h
  simp only [knownRates, List.mem_cons, List.not_mem_nil, or_false, not_or] at h
  obtain ⟨h1, h2, h3, h4, h5, h6, h7, h8, h9, h10, h11, h12, h13, h14, h15, h16,
    h17, h18, h19, h20, h21, h22, h23, h24, h25, h26, h27, h28, h29, h30⟩ := h
  simp [string_to_speed, h1, h2, h3, h4, h5, h6, h7, h8, h9, h10, h11, h12, h13,
    h14, h15, h16, h17, h18, h19, h20, h21, h22, h23, h24, h25, h26, h27, h28,
    h29, h30]

theorem unknown_rate_witness :
    ("banana") ∉ knownRates ∧ string_to_speed ("banana") = .B0 :=
  ⟨by decide, unknown_rate_maps_to_B0 ("banana") (by decide)⟩

/-- C9: for every owner identifier other than the four known owners,
`bytenuts_set_status` takes the `default` arm of its `switch`: it frees the
freshly formatted text, leaves all four stored status strings unchanged,
performs no status-line redraw, and returns 0. -/
theorem set_status_unknown_owner_noop :
    ∀ (u : Nat) (t : String) (st : StatusSet),
    u ≠ STATUS_BYTENUTS → u ≠ STATUS_INGEST → u ≠ STATUS_CHEERIOS → u ≠ STATUS_CMDPAGE →
    set_status u t st = ⟨st, true, false, 0⟩ := by
  intro u t st h1 h2 h3 h4
  unfold set_status
  rw [if_neg h1, if_neg h2, if_neg h3, if_neg h4]

theorem set_status_unknown_owner_witness :
    (7 ≠ STATUS_BYTENUTS ∧ 7 ≠ STATUS_INGEST ∧ 7 ≠ STATUS_CHEERIOS ∧ 7 ≠ STATUS_CMDPAGE) ∧
    set_status 7 ("errors: 3") stDemo = ⟨stDemo, true, false, 0⟩ :=
  ⟨by decide, set_status_unknown_owner_noop 7 ("errors: 3") stDemo
    (by decide) (by decide) (by decide) (by decide)⟩

/-- C10: for `--colors=`, `--echo=` and `--no_crlf=`, a single-character
value other than `0` or `1` is accepted without error: `parse_args` succeeds
leaving the field at its previous (default) value, yet still raises the
per-field override flag, so `load_configs` subsequently ignores any value
for that key in the config file. -/
theorem nonbinary_flag_value_still_overrides :
    ∀ (dflt : Config) (c : Char), c ≠ '0' → c ≠ '1' →
    (parse_args dflt [['-', '-', 'c', 'o', 'l', 'o', 'r', 's', '=', c], ['d', 'e', 'v']] =
      some ({ dflt with serial_path := ['d', 'e', 'v'] },
            { noOverrides with colors := true })) ∧
    (parse_args dflt [['-', '-', 'e', 'c', 'h', 'o', '=', c], ['d', 'e', 'v']] =
      some ({ dflt with serial_path := ['d', 'e', 'v'] },
            { noOverrides with echo := true })) ∧
    (parse_args dflt [['-', '-', 'n', 'o', '_', 'c', 'r', 'l', 'f', '=', c], ['d', 'e', 'v']] =
      some ({ dflt with serial_path := ['d', 'e', 'v'] },
            { noOverrides with no_crlf := true })) ∧
    (∀ (cfg : Config) (lines : List (List Char)),
      (load_configs { noOverrides with colors := true } cfg lines).colors = cfg.colors) ∧
    (∀ (cfg : Config) (lines : List (List Char)),
      (load_configs { noOverrides with echo := true } cfg lines).echo = cfg.echo) ∧
    (∀ (cfg : Config) (lines : List (List Char)),
      (load_configs { noOverrides with no_crlf := true } cfg lines).no_crlf = cfg.no_crlf) := by
  intro dflt c h0 h1
  refine ⟨?_, ?_, ?_,
    fun cfg lines => load_configs_colors_override _ rfl lines cfg,
    fun cfg lines => load_configs_echo_override _ rfl lines cfg,
    fun cfg lines => load_configs_nocrlf_override _ rfl lines cfg⟩
  · simp [parse_args, parseLoop, streq, memeq, charAt, h0, h1, noOverrides]
  · simp [parse_args, parseLoop, streq, memeq, charAt, h0, h1, noOverrides]
  · simp [parse_args, parseLoop, streq, memeq, charAt, h0, h1, noOverrides]

theorem nonbinary_flag_witness :
    ('x' ≠ '0' ∧ 'x' ≠ '1') ∧
    parse_args cfg0 [['-', '-', 'e', 'c', 'h', 'o', '=', 'x'], ['d', 'e', 'v']] =
      some ({ cfg0 with serial_path := ['d', 'e', 'v'] },
            { noOverrides with echo := true }) :=
  ⟨by decide, (nonbinary_flag_value_still_overrides cfg0 'x' (by decide) (by decide)).2.1⟩

end Bytenuts
